import Mathlib

/-!
Verification development for the TytoDB storage engine
(sources: src/src/container.rs, src/src/query.rs, src/src/query_conditions.rs).

Conventions of the shallow embedding:
* machine bytes are `Nat` values `< 256`, byte buffers are `List Nat`;
* Rust panics (out-of-bounds slicing, `unwrap`, `copy_from_slice` length
  mismatch) are modelled as `Except.error`;
* `i32` / `i64` are `Int` with explicit two's-complement conversion at the
  byte boundary; `f64` values are carried as their 64-bit IEEE-754 bit
  pattern (a `Nat < 2^64`), which is exactly what the on-disk format stores;
* the crate modules `alba_types` and `lexer_functions`, the `indexing::Hashmap`
  sidecar and the `database::batch_write_data` shim are referenced by
  `container.rs` but absent from `src/`; those pieces are modelled from the
  spec and carry a doc comment saying so.
-/

deriving instance DecidableEq for Except

namespace TytoDB

/-- Big-endian encoding of `v` into `w` bytes (`u64::to_be_bytes` and friends). -/
def natToBytesBE (w v : Nat) : List Nat :=
  (List.range w).map (fun i => v / 256 ^ (w - 1 - i) % 256)

/-- Little-endian encoding of `v` into `w` bytes (`u64::to_le_bytes` and friends). -/
def natToBytesLE (w v : Nat) : List Nat :=
  (List.range w).map (fun i => v / 256 ^ i % 256)

/-- Big-endian decoding of a byte list (`u64::from_be_bytes`). -/
def bytesToNatBE (l : List Nat) : Nat :=
  l.foldl (fun a b => a * 256 + b) 0

/-- Little-endian decoding of a byte list (`u64::from_le_bytes`). -/
def bytesToNatLE (l : List Nat) : Nat :=
  bytesToNatBE l.reverse

/-- Two's-complement encoding of an `Int` into a `w`-byte unsigned value. -/
def intToTwos (w : Nat) (v : Int) : Nat :=
  (v % (2 ^ (8 * w) : Nat)).toNat

/-- Two's-complement decoding of a `w`-byte unsigned value into an `Int`. -/
def twosToInt (w n : Nat) : Int :=
  if n < 2 ^ (8 * w - 1) then (n : Int) else (n : Int) - (2 ^ (8 * w) : Nat)

/-- Rust slice `buf[a..b]`: `none` models the panic when the range is invalid. -/
def sliceQ (buf : List Nat) (a b : Nat) : Option (List Nat) :=
  if a ≤ b ∧ b ≤ buf.length then some ((buf.drop a).take (b - a)) else none

/-- Structural worker for `chunksExact`: the fuel only bounds the recursion
depth (any fuel at least the list length is exact). -/
def chunksExactGo (n : Nat) : Nat → List α → List (List α)
  | 0, _ => []
  | fuel + 1, l =>
    if n = 0 ∨ l.length < n then [] else l.take n :: chunksExactGo n fuel (l.drop n)

/-- `slice::chunks_exact(n)`: the complete chunks of length `n`, remainder dropped. -/
def chunksExact (n : Nat) (l : List α) : List (List α) :=
  chunksExactGo n l.length l

/-- Structural worker for `chunksOf`. -/
def chunksOfGo (n : Nat) : Nat → List α → List (List α)
  | 0, _ => []
  | fuel + 1, l =>
    if n = 0 ∨ l.length = 0 then [] else l.take n :: chunksOfGo n fuel (l.drop n)

/-- `slice::chunks(n)`: all chunks, the last one possibly shorter. -/
def chunksOf (n : Nat) (l : List α) : List (List α) :=
  chunksOfGo n l.length l

/-- `FileExt::write_all_at` semantics on a byte-list file: the write is placed
at absolute offset `off`, extending the file with zero bytes if needed. -/
def writeAllAt (file : List Nat) (off : Nat) (b : List Nat) : List Nat :=
  let padded := file ++ List.replicate (off + b.length - file.length) 0
  padded.take off ++ b ++ padded.drop (off + b.length)

/-- Modelled from the spec: the `AlbaTypes` enum lives in `crate::alba_types`,
which is absent from `src/`; the set of kinds is the closed set of §3 of the
spec and matches the variants that `container.rs` and `query_conditions.rs`
pattern-match on.  Strings are carried as their UTF-8 byte sequence and an
`f64` as its IEEE-754 bit pattern. -/
inductive AlbaTypes where
  | Int (v : Int)
  | Bigint (v : Int)
  | Float (bits : Nat)
  | Bool (b : Bool)
  | Char (code : Nat)
  | NanoString (s : List Nat)
  | SmallString (s : List Nat)
  | MediumString (s : List Nat)
  | BigString (s : List Nat)
  | LargeString (s : List Nat)
  | Text (s : List Nat)
  | NanoBytes (b : List Nat)
  | SmallBytes (b : List Nat)
  | MediumBytes (b : List Nat)
  | BigSBytes (b : List Nat)
  | LargeBytes (b : List Nat)
  | NONE
  deriving DecidableEq

namespace AlbaTypes

/-- Modelled from the spec: `AlbaTypes::size` is part of the missing
`alba_types` module; the per-kind on-disk sizes are the table of spec §3,
and they agree with the size constants that `container.rs` dispatches on in
`handle_fixed_string` (18/108/508/2008/3008) and `handle_bytes`
(18/1008/10008/100008/1000008). -/
def size : AlbaTypes → Nat
  | .Int _ => 4
  | .Bigint _ => 8
  | .Float _ => 8
  | .Bool _ => 1
  | .Char _ => 4
  | .NanoString _ => 18
  | .SmallString _ => 108
  | .MediumString _ => 508
  | .BigString _ => 2008
  | .LargeString _ => 3008
  | .Text _ => 0
  | .NanoBytes _ => 18
  | .SmallBytes _ => 1008
  | .MediumBytes _ => 10008
  | .BigSBytes _ => 100008
  | .LargeBytes _ => 1000008
  | .NONE => 0

end AlbaTypes

/-- The same constructor, i.e. `std::mem::discriminant` agreement. -/
def sameKind : AlbaTypes → AlbaTypes → Bool
  | .Int _, .Int _ => true
  | .Bigint _, .Bigint _ => true
  | .Float _, .Float _ => true
  | .Bool _, .Bool _ => true
  | .Char _, .Char _ => true
  | .NanoString _, .NanoString _ => true
  | .SmallString _, .SmallString _ => true
  | .MediumString _, .MediumString _ => true
  | .BigString _, .BigString _ => true
  | .LargeString _, .LargeString _ => true
  | .Text _, .Text _ => true
  | .NanoBytes _, .NanoBytes _ => true
  | .SmallBytes _, .SmallBytes _ => true
  | .MediumBytes _, .MediumBytes _ => true
  | .BigSBytes _, .BigSBytes _ => true
  | .LargeBytes _, .LargeBytes _ => true
  | .NONE, .NONE => true
  | _, _ => false

namespace AlbaTypes

/-- A bounded payload field: length prefix (8 bytes, endianness chosen by the
caller), the payload truncated to the kind capacity `cap = size - 8`, then
zero padding up to `cap`. -/
def boundedField (lenBytes : Nat → List Nat) (cap : Nat) (s : List Nat) : List Nat :=
  let body := s.take cap
  lenBytes body.length ++ body ++ List.replicate (cap - body.length) 0

/-- Modelled from the spec: `AlbaTypes::serialize_into` is part of the missing
`alba_types` module.  Spec §3/§4.1: numeric widths big-endian, the unicode
scalar little-endian, bounded strings as `len_be(u64) || utf8 || zero_pad`,
bounded bytes as `len_le(u64) || payload || zero_pad` (endianness as read
back by `handle_fixed_string` / `handle_bytes` in container.rs), payloads
truncated to the kind capacity, `Text` and `NONE` occupying zero bytes. -/
def serializeValue : AlbaTypes → List Nat
  | .Int v => natToBytesBE 4 (intToTwos 4 v)
  | .Bigint v => natToBytesBE 8 (intToTwos 8 v)
  | .Float bits => natToBytesBE 8 bits
  | .Bool b => [if b then 1 else 0]
  | .Char code => natToBytesLE 4 code
  | .NanoString s => boundedField (natToBytesBE 8) 10 s
  | .SmallString s => boundedField (natToBytesBE 8) 100 s
  | .MediumString s => boundedField (natToBytesBE 8) 500 s
  | .BigString s => boundedField (natToBytesBE 8) 2000 s
  | .LargeString s => boundedField (natToBytesBE 8) 3000 s
  | .Text _ => []
  | .NanoBytes b => boundedField (natToBytesLE 8) 10 b
  | .SmallBytes b => boundedField (natToBytesLE 8) 1000 b
  | .MediumBytes b => boundedField (natToBytesLE 8) 10000 b
  | .BigSBytes b => boundedField (natToBytesLE 8) 100000 b
  | .LargeBytes b => boundedField (natToBytesLE 8) 1000000 b
  | .NONE => []

end AlbaTypes

inductive MvccState where
  | Delete
  | Insert
  | Edit
  deriving DecidableEq

/-- `Container::serialize_row` (container.rs:460-479): concatenate the
serialized columns and fail with a size-mismatch error when the result is not
exactly `element_size` bytes long. -/
def serialize_row (elementSize : Nat) (row : List AlbaTypes) : Except String (List Nat) :=
  let buffer := (row.map AlbaTypes.serializeValue).flatten
  if buffer.length = elementSize then .ok buffer
  else .error "Serialized size mismatch"

/-- `handle_fixed_string` (container.rs:138-163): read the 8-byte big-endian
length, reject it when `8 + len > instance_size`, take the payload and advance
the cursor by the full instance size.  Returns the new cursor and the value. -/
def handle_fixed_string (buf : List Nat) (index instanceSize : Nat) :
    Except String (Nat × AlbaTypes) := do
  let bytes ← match sliceQ buf index (index + instanceSize) with
    | some b => pure b
    | none => .error "panic: slice out of range"
  let sizeBytes ← match sliceQ bytes 0 8 with
    | some b => pure b
    | none => .error "panic: slice out of range"
  let stringLength := bytesToNatBE sizeBytes
  if 8 + stringLength > instanceSize then
    .error "Invalid string length in data"
  else do
    let stringBytes ← match sliceQ bytes 8 (8 + stringLength) with
      | some b => pure b
      | none => .error "panic: slice out of range"
    let v ← match instanceSize with
      | 18 => pure (AlbaTypes.NanoString stringBytes)
      | 108 => pure (AlbaTypes.SmallString stringBytes)
      | 508 => pure (AlbaTypes.MediumString stringBytes)
      | 2008 => pure (AlbaTypes.BigString stringBytes)
      | 3008 => pure (AlbaTypes.LargeString stringBytes)
      | _ => .error "panic: unreachable"
    pure (index + instanceSize, v)

/-- The constructor dispatch of `handle_bytes` on the instance size. -/
def bytesKindOfSize (size : Nat) (blob : List Nat) : Except String AlbaTypes :=
  match size with
  | 18 => pure (AlbaTypes.NanoBytes blob)
  | 1008 => pure (AlbaTypes.SmallBytes blob)
  | 10008 => pure (AlbaTypes.MediumBytes blob)
  | 100008 => pure (AlbaTypes.BigSBytes blob)
  | 1000008 => pure (AlbaTypes.LargeBytes blob)
  | _ => .error "panic: unreachable"

/-- `handle_bytes` (container.rs:165-202): read the 8-byte little-endian blob
length; when it is zero the value is pushed and the function returns WITHOUT
advancing the cursor (the early `return Ok(())` before `*index += size`);
otherwise the payload is taken (the whole remainder when the prefix is at
least the slice length) and the cursor advances by the instance size. -/
def handle_bytes (buf : List Nat) (index size : Nat) :
    Except String (Nat × AlbaTypes) := do
  let bytes ← match sliceQ buf index (index + size) with
    | some b => pure b
    | none => .error "panic: slice out of range"
  let blobSize ← match sliceQ bytes 0 8 with
    | some b => pure b
    | none => .error "panic: slice out of range"
  let blobLength := bytesToNatLE blobSize
  if blobLength > 0 then do
    let blob ←
      if blobLength ≥ bytes.length then
        pure (bytes.drop 8)
      else match sliceQ bytes 8 (8 + blobLength) with
        | some b => pure b
        | none => .error "panic: slice out of range"
    let v ← bytesKindOfSize size blob
    pure (index + size, v)
  else do
    let v ← bytesKindOfSize size []
    pure (index, v)

/-- Whether a code point is accepted by `char::from_u32`. -/
def isValidScalar (code : Nat) : Bool :=
  code < 0xD800 || (0xE000 ≤ code && code ≤ 0x10FFFF)

/-- One column step of `Container::deserialize_row` (container.rs:480-559):
returns the new cursor and the decoded value. -/
def deserializeColumn (buf : List Nat) (index : Nat) :
    AlbaTypes → Except String (Nat × AlbaTypes)
  | .Bigint _ => do
    let bytes ← match sliceQ buf index (index + 8) with
      | some b => pure b
      | none => .error "panic: slice out of range"
    pure (index + 8, AlbaTypes.Bigint (twosToInt 8 (bytesToNatBE bytes)))
  | .Int _ => do
    let bytes ← match sliceQ buf index (index + 4) with
      | some b => pure b
      | none => .error "panic: slice out of range"
    pure (index + 4, AlbaTypes.Int (twosToInt 4 (bytesToNatBE bytes)))
  | .Float _ => do
    let bytes ← match sliceQ buf index (index + 8) with
      | some b => pure b
      | none => .error "panic: slice out of range"
    pure (index + 8, AlbaTypes.Float (bytesToNatBE bytes))
  | .Bool _ => do
    let byte ← match buf.get? index with
      | some b => pure b
      | none => .error "Incomplete bool data"
    pure (index + 1, AlbaTypes.Bool (byte ≠ 0))
  | .Char _ => do
    let bytes ← match sliceQ buf index (index + 4) with
      | some b => pure b
      | none => .error "panic: slice out of range"
    let code := bytesToNatLE bytes
    if isValidScalar code then
      pure (index + 4, AlbaTypes.Char code)
    else
      .error "Invalid Unicode scalar value"
  | .Text _ => pure (index, AlbaTypes.Text [])
  | .NanoString _ => handle_fixed_string buf index 18
  | .SmallString _ => handle_fixed_string buf index 108
  | .MediumString _ => handle_fixed_string buf index 508
  | .BigString _ => handle_fixed_string buf index 2008
  | .LargeString _ => handle_fixed_string buf index 3008
  | .NanoBytes _ => handle_bytes buf index 18
  | .SmallBytes _ => handle_bytes buf index 1008
  | .MediumBytes _ => handle_bytes buf index 10008
  | .BigSBytes _ => handle_bytes buf index 100008
  | .LargeBytes _ => handle_bytes buf index 1000008
  | .NONE => pure (index, AlbaTypes.NONE)

/-- The column fold of `Container::deserialize_row`. -/
def deserializeColumns (buf : List Nat) : Nat → List AlbaTypes →
    Except String (List AlbaTypes)
  | _, [] => pure []
  | index, c :: cs => do
    let (index2, v) ← deserializeColumn buf index c
    let rest ← deserializeColumns buf index2 cs
    pure (v :: rest)

/-- `Container::deserialize_row` (container.rs:480-559) over the declared
column kinds of the container. -/
def deserialize_row (columns : List AlbaTypes) (buf : List Nat) :
    Except String (List AlbaTypes) :=
  deserializeColumns buf 0 columns

def isError : Except String α → Bool
  | .error _ => true
  | .ok _ => false

/-- Rust `f64 as u64`: truncation toward zero, saturating to `[0, 2^64-1]`,
NaN mapped to 0, computed from the IEEE-754 bit pattern. -/
def floatBitsToU64 (bits : Nat) : Nat :=
  let sign := bits / 2 ^ 63
  let ex := bits / 2 ^ 52 % 2 ^ 11
  let frac := bits % 2 ^ 52
  if ex = 2047 then
    if frac = 0 then (if sign = 1 then 0 else 2 ^ 64 - 1) else 0
  else if sign = 1 then 0
  else
    let mant := if ex = 0 then frac else 2 ^ 52 + frac
    let v := if ex ≥ 1075 then mant * 2 ^ (ex - 1075) else mant / 2 ^ (1075 - ex)
    min v (2 ^ 64 - 1)

/-- Static container configuration.  `strHash` / `bytesHash` stand for
`std::hash::DefaultHasher` applied to a `String` resp. a `Vec<u8>` in
`get_index` (container.rs:66-86): that hash is deterministic but its value
table is not part of the source, so it is a parameter; no theorem below
depends on its values. -/
structure ContCfg where
  elementSize : Nat
  headersOffset : Nat
  columns : List AlbaTypes
  strHash : List Nat → Nat
  bytesHash : List Nat → Nat

/-- `get_index` (container.rs:66-86): numeric kinds are cast `as u64`
(two's-complement for the signed kinds, saturating truncation for `f64`),
`Char`/`Bool` are their numeric value, strings and byte blobs are hashed,
`NONE` maps to 0. -/
def get_index (cfg : ContCfg) : AlbaTypes → Nat
  | .Int v => intToTwos 8 v
  | .Bigint v => intToTwos 8 v
  | .Float bits => floatBitsToU64 bits
  | .Char code => code
  | .Bool b => if b then 1 else 0
  | .NanoString s | .SmallString s | .MediumString s | .BigString s
  | .LargeString s | .Text s => cfg.strHash s
  | .NanoBytes b | .SmallBytes b | .MediumBytes b | .BigSBytes b
  | .LargeBytes b => cfg.bytesHash b
  | .NONE => 0

/-- `BTreeMap::insert`: replace the value when the key is present, otherwise
add the pair. -/
def mapInsert (k : Nat) (v : α) : List (Nat × α) → List (Nat × α)
  | [] => [(k, v)]
  | (k2, v2) :: t => if k = k2 then (k, v) :: t else (k2, v2) :: mapInsert k v t

/-- `BTreeSet::insert`. -/
def setInsert (x : Nat) (s : List Nat) : List Nat :=
  if x ∈ s then s else x :: s

/-- Insertion sort by the key component, giving `BTreeMap` iteration order. -/
def insertSortedByKey (x : Nat × α) : List (Nat × α) → List (Nat × α)
  | [] => [x]
  | y :: t => if x.1 ≤ y.1 then x :: y :: t else y :: insertSortedByKey x t

def sortByKey (l : List (Nat × α)) : List (Nat × α) :=
  l.foldr insertSortedByKey []

/-- Modelled from the spec: the primary-key index `indexing::Hashmap` used by
container.rs is absent from `src/` (src/src/indexing.rs holds a different,
page-based `Indexing` type from another revision).  Spec §4.2/§8 fix its
observable behaviour: a keyed mapping `u64 → u64` where insert overwrites in
place, remove deletes, and get returns the stored value.  Lookup. -/
def idxGet (idx : List (Nat × Nat)) (k : Nat) : Option Nat :=
  (idx.find? (fun e => e.1 = k)).map (fun e => e.2)

/-- Modelled from the spec: index insert, overwriting in place (§4.2). -/
def idxInsert (k v : Nat) (idx : List (Nat × Nat)) : List (Nat × Nat) :=
  mapInsert k v idx

/-- Modelled from the spec: index remove (§4.2). -/
def idxRemove (k : Nat) (idx : List (Nat × Nat)) : List (Nat × Nat) :=
  idx.filter (fun e => e.1 ≠ k)

/-- The mutable container state: row file bytes, MVCC staging
(`mvcc.0`, a `BTreeMap<u64,(MvccState,Vec<AlbaTypes>)>` represented as an
association list), the primary-key index sidecar, the graveyard set and the
write-ahead record file content. -/
structure ContState where
  file : List Nat
  staging : List (Nat × (MvccState × List AlbaTypes))
  index : List (Nat × Nat)
  graveyard : List Nat
  wal : List Nat
  deriving DecidableEq

def mvccTag : MvccState → Nat
  | .Delete => 2
  | .Insert => 0
  | .Edit => 1

/-- The byte entry appended by `Container::record_mvcc` (container.rs:325-333):
`tag(1 byte) || serialize_row(row) (element_size bytes) || key (u64 le)`. -/
def recordEntry (cfg : ContCfg) (key : Nat) (data : List AlbaTypes)
    (state : MvccState) : Except String (List Nat) := do
  let ser ← serialize_row cfg.elementSize data
  pure ([mvccTag state] ++ ser ++ natToBytesLE 8 key)

/-- One chunk step of `Container::load_mvcc` (container.rs:309-324): tag from
byte 0, row from `i[1..element_size]`, key from `i[element_size..]` copied
into an 8-byte buffer (`copy_from_slice` panics unless that slice has length
8). -/
def loadMvccChunk (cfg : ContCfg)
    (acc : List (Nat × (MvccState × List AlbaTypes))) (c : List Nat) :
    Except String (List (Nat × (MvccState × List AlbaTypes))) := do
  let tagByte ← match c.head? with
    | some b => pure b
    | none => .error "panic: index out of bounds"
  let s := match tagByte with
    | 0 => MvccState.Insert
    | 1 => MvccState.Edit
    | _ => MvccState.Delete
  let rowBytes ← match sliceQ c 1 cfg.elementSize with
    | some b => pure b
    | none => .error "panic: slice out of range"
  let row ← deserialize_row cfg.columns rowBytes
  let keyBytes := c.drop cfg.elementSize
  if keyBytes.length = 8 then
    pure (mapInsert (bytesToNatLE keyBytes) (s, row) acc)
  else
    .error "panic: copy_from_slice length mismatch"

/-- `Container::load_mvcc` (container.rs:309-324): the WAL bytes are consumed
in `chunks_exact(1 + element_size)` and folded into the staging map. -/
def load_mvcc (cfg : ContCfg) (staging : List (Nat × (MvccState × List AlbaTypes)))
    (wal : List Nat) : Except String (List (Nat × (MvccState × List AlbaTypes))) :=
  (chunksExact (1 + cfg.elementSize) wal).foldlM (loadMvccChunk cfg) staging

/-- `Container::get_next_addr` (container.rs:206-218): pop the smallest
graveyard entry if any, else the maximum staged offset plus `element_size`,
else the file size.  Returns the address and the graveyard after the pop. -/
def get_next_addr (cfg : ContCfg) (st : ContState) : Nat × List Nat :=
  match st.graveyard.min? with
  | some s => (s, st.graveyard.erase s)
  | none =>
    match (st.staging.map (fun e => e.1)).max? with
    | some m => (m + cfg.elementSize, st.graveyard)
    | none => (st.file.length, st.graveyard)

/-- `Container::push_row` (container.rs:334-349): duplicate check against the
index only, slot allocation via `get_next_addr`, staging of the Insert, WAL
append (whose own failure is discarded by the `let _ =`).  Returns the new
state and an error message when the push was rejected. -/
def push_row (cfg : ContCfg) (st : ContState) (data : List AlbaTypes) :
    ContState × Option String :=
  match data.head? with
  | none => (st, some "panic: index out of bounds")
  | some pk =>
    match idxGet st.index (get_index cfg pk) with
    | some _ => (st, some "This primary key is in use, they must be always unique.")
    | none =>
      let p := get_next_addr cfg st
      let wal2 := match recordEntry cfg p.1 data MvccState.Insert with
        | .ok entry => st.wal ++ entry
        | .error _ => st.wal
      ({ st with graveyard := p.2,
                 staging := mapInsert p.1 (MvccState.Insert, data) st.staging,
                 wal := wal2 }, none)

/-- Modelled from the spec: `delete_row` does not appear in
src/src/container.rs (only in another-revision `database.rs` with an
incompatible staging type); spec §4.3: "for each match, stages
`(offset → (Delete, [pk]))`, removes the index entry, and (subject to the
graveyard budget) remembers the offset for reuse".  This takes one matched
slot offset directly. -/
def delete_row_at (cfg : ContCfg) (st : ContState) (off : Nat) :
    Except String ContState := do
  let bytes ← match sliceQ st.file off (off + cfg.elementSize) with
    | some b => pure b
    | none => .error "panic: slice out of range"
  let row ← deserialize_row cfg.columns bytes
  let pk ← match row.head? with
    | some p => pure p
    | none => .error "panic: index out of bounds"
  let gy := if st.graveyard.length < 1250 then setInsert off st.graveyard
            else st.graveyard
  pure { st with
    staging := mapInsert off (MvccState.Delete, [pk]) st.staging,
    index := idxRemove (get_index cfg pk) st.index,
    graveyard := gy }

/-- Observable effects of `Container::commit`, in the order the source applies
them: per-entry index mutations, the sidecar sync, one event per submitted
write batch (carrying the offsets written by that batch), and the WAL
truncation. -/
inductive Ev where
  | evIdxInsert (key off : Nat)
  | evIdxRemove (key : Nat)
  | evIdxSync
  | evRowBatch (offs : List Nat)
  | evWalClear
  deriving DecidableEq

/-- Modelled from the spec: `into_schema` is part of the missing `alba_types`
module; it fits the staged row to the container schema before serialization
(spec §4.3 step 2) and can fail.  Modelled as the column-wise kind check. -/
def intoSchema (row schema : List AlbaTypes) : Except String (List AlbaTypes) :=
  if row.length = schema.length ∧
      (List.zip row schema).all (fun p => sameKind p.1 p.2) = true then
    .ok row
  else
    .error "TypeMismatch"

/-- The insertions loop of `commit` (container.rs:382-389): fit each staged
insert to the schema, serialize it (`unwrap`: a size mismatch panics), and
collect the pending write and the pending index insert. -/
def commitInsPhase (cfg : ContCfg) :
    List (Nat × List AlbaTypes) →
    Except String (List (Nat × List Nat) × List (AlbaTypes × Nat))
  | [] => .ok ([], [])
  | (off, rowData) :: t =>
    match intoSchema rowData cfg.columns with
    | .error e => .error e
    | .ok rowData2 =>
      match serialize_row cfg.elementSize rowData2 with
      | .error _ => .error "panic: unwrap of serialize_row"
      | .ok ser =>
        match rowData2.head? with
        | none => .error "panic: index out of bounds"
        | some pk =>
          match commitInsPhase cfg t with
          | .error e => .error e
          | .ok rest => .ok ((off, ser) :: rest.1, (pk, off) :: rest.2)

/-- Accumulator threaded through the fallible index-mutating loops of
`commit`.  `cnt` counts index-sidecar operations so that an injected
environment failure (`failAt`) can hit a chosen one, modelling the `?` on
`indexing.remove` / `indexing.insert` / `indexing.sync`. -/
structure IdxAcc where
  idx : List (Nat × Nat)
  cnt : Nat
  trace : List Ev
  deriving DecidableEq

/-- The edits loop of `commit` (container.rs:391-400): fit to schema,
serialize (`unwrap`), remove the index entry of the NEW row's primary key,
then queue the index insert and the row write. -/
def commitEditsPhase (cfg : ContCfg) (failAt : Option Nat) :
    List (Nat × List AlbaTypes) → IdxAcc →
    Except (String × IdxAcc) (IdxAcc × List (Nat × List Nat) × List (AlbaTypes × Nat))
  | [], a => .ok (a, [], [])
  | (off, rowData) :: t, a =>
    match intoSchema rowData cfg.columns with
    | .error e => .error (e, a)
    | .ok rowData2 =>
      match serialize_row cfg.elementSize rowData2 with
      | .error _ => .error ("panic: unwrap of serialize_row", a)
      | .ok ser =>
        match rowData2.head? with
        | none => .error ("panic: index out of bounds", a)
        | some pk =>
          if failAt = some a.cnt then
            .error ("IoFailure", { a with cnt := a.cnt + 1 })
          else
            match commitEditsPhase cfg failAt t
                { idx := idxRemove (get_index cfg pk) a.idx, cnt := a.cnt + 1,
                  trace := a.trace ++ [Ev.evIdxRemove (get_index cfg pk)] } with
            | .error e => .error e
            | .ok rest => .ok (rest.1, (off, ser) :: rest.2.1, (pk, off) :: rest.2.2)

/-- The deletes loop of `commit` (container.rs:405-418): bounded graveyard
insert, index remove keyed by the staged delete row's first column, and the
tombstone write.  `gyl` mirrors the source's separate length counter. -/
def commitDelsPhase (cfg : ContCfg) (failAt : Option Nat) :
    List (Nat × List AlbaTypes) → IdxAcc → List Nat → Nat →
    Except (String × IdxAcc × List Nat) (IdxAcc × List Nat × List (Nat × List Nat))
  | [], a, gy, _ => .ok (a, gy, [])
  | (off, rowData) :: t, a, gy, gyl =>
    match rowData.head? with
    | none =>
      .error ("panic: index out of bounds", a,
        if gyl < 1250 then setInsert off gy else gy)
    | some pk =>
      if failAt = some a.cnt then
        .error ("IoFailure", { a with cnt := a.cnt + 1 },
          if gyl < 1250 then setInsert off gy else gy)
      else
        match commitDelsPhase cfg failAt t
            { idx := idxRemove (get_index cfg pk) a.idx, cnt := a.cnt + 1,
              trace := a.trace ++ [Ev.evIdxRemove (get_index cfg pk)] }
            (if gyl < 1250 then setInsert off gy else gy)
            (if gyl < 1250 then gyl + 1 else gyl) with
        | .error e => .error e
        | .ok rest =>
          .ok (rest.1, rest.2.1, (off, List.replicate cfg.elementSize 255) :: rest.2.2)

/-- The index-insert loop of `commit` (container.rs:438-441): apply every
queued `(pk, offset)` pair to the sidecar. -/
def commitIdxInsPhase (cfg : ContCfg) (failAt : Option Nat) :
    List (AlbaTypes × Nat) → IdxAcc → Except (String × IdxAcc) IdxAcc
  | [], a => .ok a
  | (alb, off) :: t, a =>
    if failAt = some a.cnt then
      .error ("IoFailure", { a with cnt := a.cnt + 1 })
    else
      commitIdxInsPhase cfg failAt t
        { idx := idxInsert (get_index cfg alb) off a.idx, cnt := a.cnt + 1,
          trace := a.trace ++ [Ev.evIdxInsert (get_index cfg alb) off] }

/-- Modelled from the spec: `database::batch_write_data` (the vectored-write
shim of §4.6) is absent from `src/src/database.rs` (another revision); the
shim applies every `(offset, bytes)` entry of the batch to the file,
preserving offsets and lengths. -/
def batchWriteData (file : List Nat) (batch : List (Nat × List Nat)) : List Nat :=
  batch.foldl (fun f e => writeAllAt f e.1 e.2) file

/-- The batch loop of `commit` (container.rs:444-447): the pending writes are
submitted in `chunks(3000)`. -/
def commitWritePhase (file : List Nat) (writes : List (Nat × List Nat)) :
    List Nat × List Ev :=
  (chunksOf 3000 writes).foldl
    (fun acc batch =>
      (batchWriteData acc.1 batch,
       acc.2 ++ [Ev.evRowBatch (batch.map (fun e => e.1))]))
    (file, [])

/-- Result of one `commit` call: the container state when the call returns,
the trace of observable effects that happened before it returned, and the
error message if it returned early. -/
structure CommitRes where
  state : ContState
  trace : List Ev
  errMsg : Option String
  deriving DecidableEq

/-- The Insert partition of the staging map, in the order `commit` processes
it (BTreeMap iteration is key-sorted, and the source sorts again). -/
def stagingInsertions (st : ContState) : List (Nat × List AlbaTypes) :=
  sortByKey
    (((sortByKey st.staging).filter (fun e => e.2.1 = MvccState.Insert)).map
      (fun e => (e.1, e.2.2)))

/-- The Delete partition of the staging map, sorted. -/
def stagingDeletes (st : ContState) : List (Nat × List AlbaTypes) :=
  sortByKey
    (((sortByKey st.staging).filter (fun e => e.2.1 = MvccState.Delete)).map
      (fun e => (e.1, e.2.2)))

/-- The Edit partition of the staging map (left in BTreeMap iteration
order). -/
def stagingEdits (st : ContState) : List (Nat × List AlbaTypes) :=
  ((sortByKey st.staging).filter (fun e => e.2.1 = MvccState.Edit)).map
    (fun e => (e.1, e.2.2))

/-- `Container::commit` (container.rs:359-455).  Faithful order: partition the
staging map (BTreeMap iteration is key-sorted; insertions and deletes are
re-sorted by the source), CLEAR the staging map (line 374, before any
materialization), serialize insertions, run the edits loop (per-edit index
remove), the deletes loop (per-delete index remove and graveyard insert),
then all index inserts, the index sync, the write batches and the WAL
truncation.  `failAt` injects an environment failure into the n-th
index-sidecar operation (0-based; the sync is counted as an operation). -/
def commit (cfg : ContCfg) (st : ContState) (failAt : Option Nat) : CommitRes :=
  match commitInsPhase cfg (stagingInsertions st) with
  | .error e => { state := { st with staging := [] }, trace := [], errMsg := some e }
  | .ok (insWrites, insBatch) =>
    match commitEditsPhase cfg failAt (stagingEdits st)
        { idx := st.index, cnt := 0, trace := [] } with
    | .error (e, a) =>
      { state := { st with staging := [], index := a.idx },
        trace := a.trace, errMsg := some e }
    | .ok (a1, editWrites, editBatch) =>
      match commitDelsPhase cfg failAt (stagingDeletes st) a1 st.graveyard
          st.graveyard.length with
      | .error (e, a, gy) =>
        { state := { st with staging := [], index := a.idx, graveyard := gy },
          trace := a.trace, errMsg := some e }
      | .ok (a2, gy2, delWrites) =>
        match commitIdxInsPhase cfg failAt (insBatch ++ editBatch) a2 with
        | .error (e, a) =>
          { state := { st with staging := [], index := a.idx, graveyard := gy2 },
            trace := a.trace, errMsg := some e }
        | .ok a3 =>
          if failAt = some a3.cnt then
            { state := { st with staging := [], index := a3.idx, graveyard := gy2 },
              trace := a3.trace, errMsg := some "IoFailure" }
          else
            { state :=
                { st with
                    staging := []
                    index := a3.idx
                    graveyard := gy2
                    file := (commitWritePhase st.file
                      (insWrites ++ editWrites ++ delWrites)).1
                    wal := [] },
              trace := a3.trace ++ [Ev.evIdxSync] ++
                (commitWritePhase st.file (insWrites ++ editWrites ++ delWrites)).2 ++
                [Ev.evWalClear],
              errMsg := none }

/-! ### Query predicate engine (src/src/query_conditions.rs) -/

/-- Modelled from the spec: the token type comes from the missing
`lexer_functions` module; `query_conditions.rs` pattern-matches exactly these
payload shapes (`String`, `Int` as i64, `Float`, `Bool`, `Bytes`,
`Operator`).  String payloads are UTF-8 byte lists, operator names are kept
as Lean strings for the spelling match. -/
inductive Token where
  | string (s : List Nat)
  | int (v : Int)
  | float (bits : Nat)
  | bool (b : Bool)
  | bytes (b : List Nat)
  | operator (name : String)
  deriving DecidableEq

inductive LogicalGate where
  | And
  | Or
  deriving DecidableEq

inductive Operator where
  | Equal
  | StrictEqual
  | Greater
  | Lower
  | GreaterEquality
  | LowerEquality
  | Different
  | StringContains
  | StringCaseInsensitiveContains
  | StringRegularExpression
  deriving DecidableEq

structure QueryConditionAtom where
  column : List Nat
  op : Operator
  value : AlbaTypes
  deriving DecidableEq

structure QueryConditions where
  primaryKey : Option (List Nat)
  chain : List (QueryConditionAtom × Option LogicalGate)
  deriving DecidableEq

/-- Decode the first UTF-8 scalar of a byte list, returning it with the rest. -/
def utf8DecodeFirst : List Nat → Option (Nat × List Nat)
  | [] => none
  | b :: t =>
    if b < 0x80 then some (b, t)
    else if 0xC0 ≤ b ∧ b < 0xE0 then
      match t with
      | c1 :: t1 =>
        if 0x80 ≤ c1 ∧ c1 < 0xC0 then some ((b - 0xC0) * 64 + (c1 - 0x80), t1) else none
      | _ => none
    else if 0xE0 ≤ b ∧ b < 0xF0 then
      match t with
      | c1 :: c2 :: t2 =>
        if (0x80 ≤ c1 ∧ c1 < 0xC0) ∧ (0x80 ≤ c2 ∧ c2 < 0xC0) then
          some (((b - 0xE0) * 64 + (c1 - 0x80)) * 64 + (c2 - 0x80), t2)
        else none
      | _ => none
    else if 0xF0 ≤ b ∧ b < 0xF8 then
      match t with
      | c1 :: c2 :: c3 :: t3 =>
        if (0x80 ≤ c1 ∧ c1 < 0xC0) ∧ (0x80 ≤ c2 ∧ c2 < 0xC0) ∧ (0x80 ≤ c3 ∧ c3 < 0xC0) then
          some ((((b - 0xF0) * 64 + (c1 - 0x80)) * 64 + (c2 - 0x80)) * 64 + (c3 - 0x80), t3)
        else none
      | _ => none
    else none

/-- `string_to_char` (query_conditions.rs:9-16): succeeds exactly when the
string is a single character. -/
def stringToChar (s : List Nat) : Except String Nat :=
  match utf8DecodeFirst s with
  | some (c, []) => .ok c
  | _ => .error "Input must be exactly one character"

/-- The operator-name table of `from_primitive_conditions`
(query_conditions.rs:98-116). -/
def operatorOfName (name : String) : Except String Operator :=
  if name = "=" then .ok .Equal
  else if name = "==" then .ok .StrictEqual
  else if name = ">=" then .ok .GreaterEquality
  else if name = "<=" then .ok .LowerEquality
  else if name = ">" then .ok .Greater
  else if name = "<" then .ok .Lower
  else if name = "!=" then .ok .Different
  else if name = "&>" then .ok .StringContains
  else if name = "&&>" then .ok .StringCaseInsensitiveContains
  else if name = "&&&>" then .ok .StringRegularExpression
  else .error "Failed to get operator, invalid token contant."

/-- The literal-coercion table of `from_primitive_conditions`
(query_conditions.rs:118-248), translated verbatim: note that the
MediumString, BigString and LargeString arms truncate to 500/2000/3000 bytes
but wrap the result in `AlbaTypes::SmallString` (query_conditions.rs:181,
189, 197), and the LargeBytes arm wraps in `AlbaTypes::BigSBytes`
(query_conditions.rs:237). -/
def coerceLiteral (columnType : AlbaTypes) (tok : Token) : Except String AlbaTypes :=
  match columnType with
  | .Text _ =>
    match tok with
    | .string s => .ok (AlbaTypes.Text s)
    | _ => .error "No string found in the ComparisionToken"
  | .Int _ =>
    match tok with
    | .int n => .ok (AlbaTypes.Int (twosToInt 4 (intToTwos 4 n)))
    | _ => .error "No integer found in the ComparisionToken"
  | .Bigint _ =>
    match tok with
    | .int n => .ok (AlbaTypes.Bigint n)
    | _ => .error "No integer found in the ComparisionToken"
  | .Float _ =>
    match tok with
    | .float bits => .ok (AlbaTypes.Float bits)
    | _ => .error "No float found in the ComparisionToken"
  | .Bool _ =>
    match tok with
    | .bool b => .ok (AlbaTypes.Bool b)
    | _ => .error "No bool found in the ComparisionToken"
  | .Char _ =>
    match tok with
    | .string s => do
      let c ← stringToChar s
      .ok (AlbaTypes.Char c)
    | _ => .error "No char found in the ComparisionToken"
  | .NanoString _ =>
    match tok with
    | .string s => .ok (AlbaTypes.NanoString (s.take 10))
    | _ => .error "No nano_string found in the ComparisionToken"
  | .SmallString _ =>
    match tok with
    | .string s => .ok (AlbaTypes.SmallString (s.take 100))
    | _ => .error "No small_string found in the ComparisionToken"
  | .MediumString _ =>
    match tok with
    | .string s => .ok (AlbaTypes.SmallString (s.take 500))
    | _ => .error "No medium_string found in the ComparisionToken"
  | .BigString _ =>
    match tok with
    | .string s => .ok (AlbaTypes.SmallString (s.take 2000))
    | _ => .error "No big_string found in the ComparisionToken"
  | .LargeString _ =>
    match tok with
    | .string s => .ok (AlbaTypes.SmallString (s.take 3000))
    | _ => .error "No large_string found in the ComparisionToken"
  | .NanoBytes _ =>
    match tok with
    | .bytes b => .ok (AlbaTypes.NanoBytes (b.take 10))
    | _ => .error "No nano_bytes found in the ComparisionToken"
  | .SmallBytes _ =>
    match tok with
    | .bytes b => .ok (AlbaTypes.SmallBytes (b.take 1000))
    | _ => .error "No small_bytes found in the ComparisionToken"
  | .MediumBytes _ =>
    match tok with
    | .bytes b => .ok (AlbaTypes.MediumBytes (b.take 10000))
    | _ => .error "No medium_bytes found in the ComparisionToken"
  | .BigSBytes _ =>
    match tok with
    | .bytes b => .ok (AlbaTypes.BigSBytes (b.take 100000))
    | _ => .error "No big_bytes found in the ComparisionToken"
  | .LargeBytes _ =>
    match tok with
    | .bytes b => .ok (AlbaTypes.BigSBytes (b.take 1000000))
    | _ => .error "No large_bytes found in the ComparisionToken"
  | .NONE => .error "Failed to extract the value from the column_properties"

/-- Association-list lookup keyed by byte-list names. -/
def assocGet (m : List (List Nat × α)) (k : List Nat) : Option α :=
  (m.find? (fun e => e.1 = k)).map (fun e => e.2)

/-- The gate table built at the top of `from_primitive_conditions`
(query_conditions.rs:81-88). -/
def gatesOf : List (Nat × Char) → Except String (List (Nat × LogicalGate))
  | [] => .ok []
  | (i, c) :: t => do
    let g ← if c = 'a' ∨ c = 'A' then pure LogicalGate.And
            else if c = 'o' ∨ c = 'O' then pure LogicalGate.Or
            else .error "Failed to load LogicalGate, invalid token."
    let rest ← gatesOf t
    .ok ((i, g) :: rest)

def natAssocGet (m : List (Nat × α)) (k : Nat) : Option α :=
  (m.find? (fun e => e.1 = k)).map (fun e => e.2)

/-- The atom loop of `from_primitive_conditions`
(query_conditions.rs:89-255): column name from the first token, operator from
the second, literal coercion by the column kind, gate looked up by atom
index. -/
def buildChain (props : List (List Nat × AlbaTypes))
    (gates : List (Nat × LogicalGate)) :
    Nat → List (Token × Token × Token) →
    Except String (List (QueryConditionAtom × Option LogicalGate))
  | _, [] => .ok []
  | index, (t0, t1, t2) :: rest => do
    let column ← match t0 with
      | .string name => pure name
      | _ => .error "Failed to get QueryConditions, but failed to gather the column_name."
    let op ← match t1 with
      | .operator name => operatorOfName name
      | _ => .error "Failed to get operator, invalid token,"
    let columnValue ← match assocGet props column with
      | some columnType => coerceLiteral columnType t2
      | none => .error "Failed to generate QueryConditions, that happened because no column_property has been found with the given column-names"
    let gate := natAssocGet gates index
    let tail ← buildChain props gates (index + 1) rest
    .ok (({ column := column, op := op, value := columnValue }, gate) :: tail)

/-- `QueryConditions::from_primitive_conditions`
(query_conditions.rs:77-257). -/
def from_primitive_conditions
    (conds : List (Token × Token × Token)) (gatesRaw : List (Nat × Char))
    (props : List (List Nat × AlbaTypes)) (primaryKey : List Nat) :
    Except String QueryConditions := do
  let gates ← gatesOf gatesRaw
  let chain ← buildChain props gates 0 conds
  .ok { primaryKey := some primaryKey, chain := chain }

/-! ### Row matching -/

/-- A deserialized row presented to the predicate: the per-column-name value
map built by the search executor (a `HashMap<String, AlbaTypes>`). -/
abbrev RowData := List (List Nat × AlbaTypes)

def floatIsNaN (bits : Nat) : Bool :=
  bits / 2 ^ 52 % 2 ^ 11 = 2047 ∧ bits % 2 ^ 52 ≠ 0

/-- Total-order key for non-NaN IEEE-754 doubles: positives map to their bit
pattern, negatives to minus their magnitude bits, so both zeros map to 0. -/
def floatKey (bits : Nat) : Int :=
  if bits < 2 ^ 63 then (bits : Int) else -((bits - 2 ^ 63 : Nat) : Int)

/-- Rust `f64` comparison from bit patterns: `none` when a NaN is involved. -/
def floatCmp (a b : Nat) : Option Ordering :=
  if floatIsNaN a ∨ floatIsNaN b then none
  else some (compare (floatKey a) (floatKey b))

/-- Rust `PartialEq` on `AlbaTypes`: structural except on floats, where IEEE
equality applies (`NaN ≠ NaN`, `-0.0 = +0.0`). -/
def albaEq (a b : AlbaTypes) : Bool :=
  match a, b with
  | .Float x, .Float y => floatCmp x y = some Ordering.eq
  | _, _ => a = b

/-- External string facilities used by `row_match` that live outside the
repository (the `regex` crate, Unicode case folding, `f64` formatting);
carried as parameters, no theorem depends on their values. -/
structure StrOps where
  regexCompile : List Nat → Option (List Nat → Bool)
  toLower : List Nat → List Nat
  floatToStr : Nat → List Nat

def natToDecimal (n : Nat) : List Nat :=
  (Nat.toDigits 10 n).map Char.toNat

/-- `str::contains` on byte lists: the needle occurs as a contiguous
subsequence of the haystack. -/
def listContainsSub (needle hay : List Nat) : Bool :=
  (List.range (hay.length + 1)).any (fun i => needle.isPrefixOf (hay.drop i))

/-- `i32`/`i64` `Display`, as UTF-8 bytes. -/
def intToStr (v : Int) : List Nat :=
  if v < 0 then 45 :: natToDecimal v.natAbs else natToDecimal v.natAbs

/-- The stringification used by the contains/regex arms of `row_match`
(query_conditions.rs:466-527): numeric kinds display, the four larger string
kinds pass through, everything else is a type error.  NOTE the source omits
`NanoString` from these arms. -/
def stringOperand (ops : StrOps) : AlbaTypes → Except String (List Nat)
  | .Int v => .ok (intToStr v)
  | .Bigint v => .ok (intToStr v)
  | .Float bits => .ok (ops.floatToStr bits)
  | .SmallString s | .MediumString s | .BigString s | .LargeString s => .ok s
  | _ => .error "Invalid, the entered type cannot make string operations"

/-- Bit pattern of `n as f64` for a natural `n`, with IEEE round to nearest,
ties to even (exact below `2^53`). -/
def floatOfNat (n : Nat) : Nat :=
  if n = 0 then 0
  else
    let k := Nat.log2 n
    if k ≤ 52 then
      (k + 1023) * 2 ^ 52 + (n * 2 ^ (52 - k) - 2 ^ 52)
    else
      let shift := k - 52
      let q := n / 2 ^ shift
      let r := n % 2 ^ shift
      let half := 2 ^ (shift - 1)
      let q2 := if r > half ∨ (r = half ∧ q % 2 = 1) then q + 1 else q
      if q2 = 2 ^ 53 then (k + 1 + 1023) * 2 ^ 52
      else (k + 1023) * 2 ^ 52 + (q2 - 2 ^ 52)

/-- Bit pattern of `v as f64` for a signed integer (the `x as f64`
promotions of `row_match`). -/
def floatOfInt (v : Int) : Nat :=
  if v < 0 then 2 ^ 63 + floatOfNat v.natAbs else floatOfNat v.natAbs

/-- The ordered-comparison arm of `row_match`
(query_conditions.rs:293-451): same-kind comparisons for Int, Bigint, Float
and the six widening promotions; every other pairing is a type error. -/
def numericCompare (rowValue value : AlbaTypes) (lower equality : Bool) :
    Except String Bool :=
  let cmpI (x y : Int) : Bool :=
    if lower then (if equality then x ≤ y else x < y)
    else (if equality then x ≥ y else x > y)
  let cmpF (x y : Nat) : Bool :=
    match floatCmp x y with
    | none => false
    | some o =>
      if lower then (if equality then o ≠ Ordering.gt else o = Ordering.lt)
      else (if equality then o ≠ Ordering.lt else o = Ordering.gt)
  let intBits (v : Int) : Nat := floatOfInt v
  match rowValue, value with
  | .Int x, .Int y => .ok (cmpI x y)
  | .Bigint x, .Bigint y => .ok (cmpI x y)
  | .Float x, .Float y => .ok (cmpF x y)
  | .Int x, .Bigint y => .ok (cmpI x y)
  | .Bigint x, .Int y => .ok (cmpI x y)
  | .Int x, .Float y => .ok (cmpF (intBits x) y)
  | .Float x, .Int y => .ok (cmpF x (intBits y))
  | .Bigint x, .Float y => .ok (cmpF (intBits x) y)
  | .Float x, .Bigint y => .ok (cmpF x (intBits y))
  | _, _ => .error "Invalid type for numeric comparison"

/-- One condition evaluation inside `row_match`
(query_conditions.rs:285-555): equality is `PartialEq`, ordered operators go
through the numeric table, contains/regex go through the string operands.
The per-run regex cache of the source only avoids recompiling and does not
change results, so it is not represented. -/
def evalAtom (ops : StrOps) (qc : QueryConditionAtom) (rowValue : AlbaTypes) :
    Except String Bool :=
  match qc.op with
  | .Equal | .StrictEqual => .ok (albaEq qc.value rowValue)
  | .Greater | .GreaterEquality | .Lower | .LowerEquality =>
    let equality := (qc.op == Operator.GreaterEquality) || (qc.op == Operator.LowerEquality)
    let lower := (qc.op == Operator.Lower) || (qc.op == Operator.LowerEquality)
    numericCompare rowValue qc.value lower equality
  | .Different => .ok (!(albaEq qc.value rowValue))
  | .StringContains | .StringCaseInsensitiveContains => do
    let caseInsensitive := qc.op == Operator.StringCaseInsensitiveContains
    let rowString ← stringOperand ops rowValue
    let valueString ← stringOperand ops qc.value
    .ok (if caseInsensitive then
           listContainsSub (ops.toLower valueString) (ops.toLower rowString)
         else
           listContainsSub valueString rowString)
  | .StringRegularExpression => do
    let rowString ← stringOperand ops rowValue
    let valueString ← stringOperand ops qc.value
    match ops.regexCompile valueString with
    | some matcher => .ok (matcher rowString)
    | none => .error "regex compilation failed"

/-- The condition fold of `row_match` (query_conditions.rs:271-583): a
missing column skips the condition; an `And` gate with a false condition
short-circuits to false, an `Or` gate with a true condition short-circuits to
true, a gateless condition overwrites the running result. -/
def rowMatchGo (ops : StrOps) (row : RowData) :
    List (QueryConditionAtom × Option LogicalGate) → Bool → Except String Bool
  | [], result => .ok result
  | (qc, gate) :: t, result =>
    match assocGet row qc.column with
    | none => rowMatchGo ops row t result
    | some rowValue => do
      let check ← evalAtom ops qc rowValue
      match gate with
      | some LogicalGate.And =>
        if check then rowMatchGo ops row t result else .ok false
      | some LogicalGate.Or =>
        if check then .ok true else rowMatchGo ops row t result
      | none => rowMatchGo ops row t check

/-- `QueryConditions::row_match` (query_conditions.rs:258-587): an empty
chain returns true immediately; otherwise the chain is folded left to right
starting from a false running result. -/
def row_match (ops : StrOps) (qc : QueryConditions) (row : RowData) :
    Except String Bool :=
  if qc.chain = [] then .ok true
  else rowMatchGo ops row qc.chain false

/-! ### Search executor (src/src/query.rs) -/

/-- Modelled from the spec: `Container::arrlen_abs` is called by query.rs but
is absent from src/src/container.rs; it is the number of row slots,
`(file size - headers_offset) / element_size`. -/
def arrlenAbs (cfg : ContCfg) (file : List Nat) : Nat :=
  (file.length - cfg.headersOffset) / cfg.elementSize

/-- The per-row map building shared by the `search` functions
(query.rs:258-283): pair each header name with the value at its position,
failing when a value is missing or the discriminant disagrees with the
declared kind. -/
def buildRowData (rowContent : List AlbaTypes) :
    Nat → List (List Nat × AlbaTypes) → Except String RowData
  | _, [] => .ok []
  | i, (name, kind) :: t =>
    match rowContent.get? i with
    | none => .error "Invalid alba type row order, missing stuff"
    | some cv =>
      if sameKind cv kind then do
        let rest ← buildRowData rowContent (i + 1) t
        .ok ((name, cv) :: rest)
      else
        .error "Invalid alba type row order, unmatching stuff"

/-- The inner slot loop of `search` (query.rs:256-286): deserialize each slot
of the chunk (note: every slot, with no graveyard or tombstone check) and
record it with its row id `readen_rows + i`. -/
def searchChunkRows (cfg : ContCfg) (headers : List (List Nat × AlbaTypes))
    (buffer : List Nat) (base : Nat) :
    Nat → Nat → Except String (List (RowData × Nat))
  | _, 0 => .ok []
  | i, n + 1 => do
    let buff ← match sliceQ buffer (i * cfg.elementSize) ((i + 1) * cfg.elementSize) with
      | some b => pure b
      | none => .error "panic: slice out of range"
    let rowContent ← deserialize_row cfg.columns buff
    let row ← buildRowData rowContent 0 headers
    let rest ← searchChunkRows cfg headers buffer base (i + 1) n
    .ok ((row, base + i) :: rest)

/-- The chunked read loop of `search` (query.rs:251-288), including the
source's `readen_rows += 1` per iteration.  The structural fuel bounds the
iteration count; the loop runs exactly `total_rows` iterations, which is the
fuel `search` passes. -/
def searchGather (cfg : ContCfg) (headers : List (List Nat × AlbaTypes))
    (file : List Nat) (headerOffset totalRows rowsPerIter arrlen : Nat) :
    Nat → Nat → Except String (List (RowData × Nat))
  | 0, _ => .ok []
  | fuel + 1, readenRows =>
    if readenRows < totalRows then do
      let toRead := min rowsPerIter (totalRows - readenRows)
      let readSize := toRead * cfg.elementSize
      let offset := headerOffset +
        min (readenRows * cfg.elementSize) (arrlen * cfg.elementSize)
      let buffer ← match sliceQ file offset (offset + readSize) with
        | some b => pure b
        | none => .error "panic: read_exact_at failed"
      let rows ← searchChunkRows cfg headers buffer readenRows 0 toRead
      let rest ← searchGather cfg headers file headerOffset totalRows rowsPerIter
        arrlen fuel (readenRows + 1)
      .ok (rows ++ rest)
    else
      .ok []

/-- The paging fold of `search` (query.rs:290-308): matching row ids are
bucketed a hundred at a time; `row_match` failures are `unwrap`ed (panic). -/
def searchPages (ops : StrOps) (qc : QueryConditions) :
    List (RowData × Nat) → List Nat → Nat → Except String (List (List Nat))
  | [], bucket, bucketLen => .ok (if bucketLen > 0 then [bucket] else [])
  | (row, id) :: t, bucket, bucketLen => do
    let m ← row_match ops qc row
    if m then
      let bucket2 := bucket ++ [id]
      if bucketLen + 1 ≥ 100 then do
        let rest ← searchPages ops qc t [] 0
        .ok (bucket2 :: rest)
      else
        searchPages ops qc t bucket2 (bucketLen + 1)
    else
      searchPages ops qc t bucket bucketLen

/-- `search` (query.rs:234-309): the chunked sequential scan.  Result: the
pages of matching row ids (the container-name tag of each page is constant
and omitted). -/
def search (ops : StrOps) (cfg : ContCfg) (headers : List (List Nat × AlbaTypes))
    (file : List Nat) (headerOffset : Nat) (qc : QueryConditions) :
    Except String (List (List Nat)) := do
  let fileSize := file.length
  let totalRows := (fileSize - headerOffset) / cfg.elementSize
  let rowsPerIter := min (max 1 (40960 / cfg.elementSize)) totalRows
  let rows ← searchGather cfg headers file headerOffset totalRows rowsPerIter
    (arrlenAbs cfg file) totalRows 0
  searchPages ops qc rows [] 0

/-! ### Vacuum (container.rs:219-307) -/

/-- The chunked bitmap-building loop of `vacuum` (container.rs:238-248): runs
exactly `(length / chunk_size).max(1)` iterations, each reading
`min(length - readen, chunk_size)` slots and pushing one bit per slot
(`true` = occupied, i.e. the slot differs from the tombstone fill). -/
def vacReadGo (cfg : ContCfg) (file : List Nat) (length chunkSize : Nat) :
    Nat → Nat → Except String (List Bool)
  | 0, _ => .ok []
  | n + 1, readen => do
    let etr := min (length - readen) chunkSize
    let offset := cfg.headersOffset + readen * cfg.elementSize
    let buffer ← match sliceQ file offset (offset + cfg.elementSize * etr) with
      | some b => pure b
      | none => .error "panic: read_exact_at failed"
    let empty := List.replicate cfg.elementSize 255
    let bits := (chunksExact cfg.elementSize buffer).map (fun j => !(j == empty))
    let rest ← vacReadGo cfg file length chunkSize n (readen + etr)
    .ok (bits ++ rest)

/-- The two-pointer hole/survivor pairing of `vacuum` (container.rs:250-277):
`cursor` walks forward looking for a hole, `back_c` walks backward looking
for a survivor; a found pair is pushed without advancing either pointer, so
the loop leaves only through the pair budget (the source behaviour). -/
def vacPairsGo (bits : List Bool) (cursor backC : Nat) (run : Bool)
    (pairs : List (Nat × Nat)) : List (Nat × Nat) :=
  if h : cursor < backC then
    match run with
    | false =>
      match bits.get? cursor with
      | some val =>
        if !val then vacPairsGo bits cursor backC true pairs
        else vacPairsGo bits (cursor + 1) backC false pairs
      | none => pairs
    | true =>
      match bits.get? backC with
      | some val =>
        if val then
          if h2 : (pairs ++ [(cursor, backC)]).length > 625000 then
            pairs ++ [(cursor, backC)]
          else vacPairsGo bits cursor backC false (pairs ++ [(cursor, backC)])
        else vacPairsGo bits cursor (backC - 1) true pairs
      | none => pairs
  else pairs
termination_by (625002 - pairs.length, backC - cursor, if run then 0 else 1)
decreasing_by
  all_goals simp only [Prod.lex_def]
  all_goals simp_all
  all_goals omega

/-- `Vec::swap` on the bitmap. -/
def listSwap (l : List Bool) (i j : Nat) : List Bool :=
  (l.set i (l.getD j false)).set j (l.getD i false)

/-- The pair-relocation loop of `vacuum` (container.rs:279-291): copy the
survivor into the hole, tombstone the survivor slot, repoint the index entry
of the survivor's primary key, swap the bitmap bits. -/
def vacMovePairs (cfg : ContCfg) :
    List (Nat × Nat) → List Nat → List (Nat × Nat) → List Bool →
    Except String (List Nat × List (Nat × Nat) × List Bool)
  | [], file, idx, bits => .ok (file, idx, bits)
  | (dead, alive) :: t, file, idx, bits => do
    let aliveOffset := alive * cfg.elementSize + cfg.headersOffset
    let buffer ← match sliceQ file aliveOffset (aliveOffset + cfg.elementSize) with
      | some b => pure b
      | none => .error "panic: read_exact_at failed"
    let row ← deserialize_row cfg.columns buffer
    let rowPk ← match row.head? with
      | some p => pure p
      | none => .error "panic: index out of bounds"
    let deadOffset := dead * cfg.elementSize + cfg.headersOffset
    let file2 := writeAllAt file deadOffset buffer
    let file3 := writeAllAt file2 aliveOffset (List.replicate cfg.elementSize 255)
    let idx2 := idxInsert (get_index cfg rowPk) deadOffset idx
    vacMovePairs cfg t file3 idx2 (listSwap bits dead alive)

/-- The trailing-tombstone count of `vacuum` (container.rs:293-297): walk
backwards from `index`, counting zero bits, stopping at a set bit, at the
front of the bitmap, or past its end. -/
def vacTailGo (bits : List Bool) : Nat → Nat → Nat
  | 0, rtr =>
    match bits.get? 0 with
    | none => rtr
    | some val => if val then rtr else rtr + 1
  | index + 1, rtr =>
    match bits.get? (index + 1) with
    | none => rtr
    | some val => if val then rtr else vacTailGo bits index (rtr + 1)

/-- `File::set_len`. -/
def setLen (file : List Nat) (n : Nat) : List Nat :=
  file.take n ++ List.replicate (n - file.length) 0

/-- `Container::vacuum` (container.rs:219-307): clear graveyard and staging,
build the occupancy bitmap in at most 4 MiB reads, pair holes with trailing
survivors, relocate them, then truncate the trailing tombstone run.
A `chunk_size` of zero (element size above 4 MiB) is the source's division
panic. -/
def vacuum (cfg : ContCfg) (st : ContState) : Except String ContState :=
  if (st.file.length - cfg.headersOffset) / cfg.elementSize = 0 then
    .ok { st with graveyard := [], staging := [] }
  else if 4194304 / cfg.elementSize = 0 then
    .error "panic: divide by zero"
  else
    (vacReadGo cfg st.file ((st.file.length - cfg.headersOffset) / cfg.elementSize)
        (4194304 / cfg.elementSize)
        (max ((st.file.length - cfg.headersOffset) / cfg.elementSize
          / (4194304 / cfg.elementSize)) 1) 0) >>= fun bits =>
    (vacMovePairs cfg (vacPairsGo bits 0 (bits.length - 1) false [])
        st.file st.index bits) >>= fun moved =>
    if vacTailGo moved.2.2 (moved.2.2.length - 1) 0 > 0 then
      .ok { st with
              graveyard := []
              staging := []
              index := moved.2.1
              file := setLen moved.1 (max cfg.headersOffset
                (moved.1.length -
                  vacTailGo moved.2.2 (moved.2.2.length - 1) 0 * cfg.elementSize)) }
    else
      .ok { st with
              graveyard := []
              staging := []
              index := moved.2.1
              file := moved.1 }

/-! ### Decidable statements of the claimed properties -/

/-- The bytes of slot `i` of the row region. -/
def slotBytes (cfg : ContCfg) (st : ContState) (i : Nat) : List Nat :=
  (st.file.drop (cfg.headersOffset + i * cfg.elementSize)).take cfg.elementSize

/-- Number of whole slots in the row region. -/
def slotCount (cfg : ContCfg) (st : ContState) : Nat :=
  (st.file.length - cfg.headersOffset) / cfg.elementSize

/-- The committed-state primary-key invariant asserted by the spec: for every
slot whose bytes are not the tombstone fill and deserialize to a row with
primary key `p`, the index holds an entry at `hash(p)` whose offset carries
non-tombstone bytes deserializing to a row with primary key `p`.  (The index
is a keyed map, so "exactly one entry" for a key is its entry being
present.) -/
def committedPkIndexed (cfg : ContCfg) (st : ContState) : Bool :=
  (List.range (slotCount cfg st)).all fun i =>
    let b := slotBytes cfg st i
    if b = List.replicate cfg.elementSize 255 then true
    else
      match deserialize_row cfg.columns b with
      | .error _ => true
      | .ok row =>
        match row.head? with
        | none => true
        | some p =>
          match idxGet st.index (get_index cfg p) with
          | none => false
          | some off =>
            let b2 := (st.file.drop off).take cfg.elementSize
            decide (b2 ≠ List.replicate cfg.elementSize 255) &&
              (match deserialize_row cfg.columns b2 with
               | .error _ => false
               | .ok row2 => row2.head? == some p)

def evIsInsert : Ev → Bool
  | .evIdxInsert _ _ => true
  | _ => false

def evIsRemove : Ev → Bool
  | .evIdxRemove _ => true
  | _ => false

def evIsBatch : Ev → Bool
  | .evRowBatch _ => true
  | _ => false

def batchSize : Ev → Nat
  | .evRowBatch l => l.length
  | _ => 0

/-- The commit-effect order asserted by claim C4: all index inserts, then all
index removes, then the sync, then row-write batches of at most 3000 entries,
then the WAL clear. -/
def insertsRemovesSyncWritesClear (tr : List Ev) : Bool :=
  let i := tr.takeWhile evIsInsert
  let r1 := tr.drop i.length
  let r := r1.takeWhile evIsRemove
  match r1.drop r.length with
  | Ev.evIdxSync :: r3 =>
    let w := r3.takeWhile evIsBatch
    decide (r3.drop w.length = [Ev.evWalClear]) && w.all (fun e => batchSize e ≤ 3000)
  | _ => false

/-- The commit-effect order the source actually implements: all index
removes, then all index inserts, then the sync, then row-write batches of at
most 3000 entries, then the WAL clear. -/
def removesInsertsSyncWritesClear (tr : List Ev) : Bool :=
  let r := tr.takeWhile evIsRemove
  let r1 := tr.drop r.length
  let i := r1.takeWhile evIsInsert
  match r1.drop i.length with
  | Ev.evIdxSync :: r3 =>
    let w := r3.takeWhile evIsBatch
    decide (r3.drop w.length = [Ev.evWalClear]) && w.all (fun e => batchSize e ≤ 3000)
  | _ => false

/-! ### Concrete fixtures used by the claim instances -/

/-- String facilities instantiated trivially; the scenarios below never reach
a contains/regex/case-folding branch. -/
def noOps : StrOps := ⟨fun _ => none, id, fun _ => []⟩

/-- A container with one `i32` column (`element_size = 4`) and an empty
header block, with the hash parameters instantiated trivially (no scenario
hashes a string or byte key). -/
def cfgInt1 : ContCfg := ⟨4, 0, [AlbaTypes.Int 0], fun _ => 0, fun _ => 0⟩

/-- A freshly created empty container state. -/
def stEmpty : ContState := ⟨[], [], [], [], []⟩

/-- A container with two `i32` columns (`element_size = 8`, primary key the
first column) behind a 16-byte header block. -/
def cfgInt2 : ContCfg := ⟨8, 16, [AlbaTypes.Int 0, AlbaTypes.Int 0], fun _ => 0, fun _ => 0⟩

/-- The empty two-column container: a 16-byte header block, no rows. -/
def stInt2Empty : ContState := ⟨List.replicate 16 0, [], [], [], []⟩

/-- C2 scenario, staging step: two `push_row` calls with the SAME primary key
`1` (both are accepted: `push_row` consults only the index). -/
def c2Staged : ContState :=
  (push_row cfgInt2 (push_row cfgInt2 stInt2Empty [AlbaTypes.Int 1, AlbaTypes.Int 10]).1
    [AlbaTypes.Int 1, AlbaTypes.Int 20]).1

/-- C2 scenario: the committed state holding both duplicate rows. -/
def c2Committed : ContState := (commit cfgInt2 c2Staged none).state

/-- C2 scenario: delete the duplicate at offset 24 (the one the index entry
points at). -/
def c2AfterDelete : Except String ContState := delete_row_at cfgInt2 c2Committed 24

/-- C2 scenario: the final committed state, with the surviving duplicate at
offset 16 left without any index entry. -/
def c2Final : ContState :=
  match c2AfterDelete with
  | .ok s => (commit cfgInt2 s none).state
  | .error _ => stInt2Empty

/-- C3 scenario: a one-row container with one staged Edit; the row `5` is on
disk at offset 0 with its index entry, and some WAL content is pending. -/
def c3State : ContState :=
  ⟨[0, 0, 0, 5], [(0, (MvccState.Edit, [AlbaTypes.Int 7]))], [(5, 0)], [], [9, 9, 9]⟩

/-- C4 scenario: one committed row `(2, 5)` at offset 16 staged for deletion
together with one staged insert `(3, 9)` at offset 24, so a single commit
performs both an index remove and an index insert. -/
def c4State : ContState :=
  ⟨List.replicate 16 0 ++ [0, 0, 0, 2, 0, 0, 0, 5] ++ [0, 0, 0, 0, 0, 0, 0, 0],
   [(16, (MvccState.Delete, [AlbaTypes.Int 2])),
    (24, (MvccState.Insert, [AlbaTypes.Int 3, AlbaTypes.Int 9]))],
   [(2, 16)], [], [7]⟩

/-- A container with one bounded-string column (`element_size = 18`) behind
an 8-byte header block. -/
def cfgStr1 : ContCfg := ⟨18, 8, [AlbaTypes.NanoString []], fun _ => 0, fun _ => 0⟩

/-- C7 scenario: the header block followed by exactly one tombstone slot. -/
def file7 : List Nat := List.replicate 8 0 ++ List.replicate 18 255

/-- The header list of the one-string-column container. -/
def headers7 : List (List Nat × AlbaTypes) := [([99], AlbaTypes.NanoString [])]

/-- A predicate with an empty condition chain. -/
def qcEmpty : QueryConditions := ⟨some [99], []⟩

/-- C9 scenario schema: one `LargeBytes` column and 99524 `i32` columns, so
the element size is `1000008 + 99524·4 = 1398104` and the vacuum chunk size
`4194304 / 1398104` is 2, which does not divide the slot count 3. -/
def cols9 : List AlbaTypes :=
  AlbaTypes.LargeBytes [] :: List.replicate 99524 (AlbaTypes.Int 0)

def cfg9 : ContCfg := ⟨1398104, 8, cols9, fun _ => 0, fun _ => 0⟩

/-- C9 scenario: an 8-byte header block followed by three tombstone slots. -/
def file9 : List Nat := List.replicate 8 0 ++ List.replicate (3 * 1398104) 255

def st9 : ContState := ⟨file9, [], [], [], []⟩

/-! ## Theorems -/

/-- The C9 schema is consistent: the declared column sizes sum to the
configured element size. -/
theorem sizesSumReplicateInt (n : Nat) :
    ((List.replicate n (AlbaTypes.Int 0)).map AlbaTypes.size).sum = 4 * n := by
  induction n with
  | zero => rfl
  | succ k ih =>
    rw [List.replicate_succ, List.map_cons, List.sum_cons, ih]
    simp [AlbaTypes.size]
    ring

theorem cols9_size_sum : (cols9.map AlbaTypes.size).sum = 1398104 := by
  rw [cols9, List.map_cons, List.sum_cons, sizesSumReplicateInt]
  rfl

/-- C1: `record_mvcc` writes `tag || serialized_row || offset(8 bytes le)`
(entry length `1 + element_size + 8`), but `load_mvcc` consumes the WAL in
chunks of only `1 + element_size` bytes and reads the row from
`i[1..element_size]`, so replaying the WAL written for a single staged insert
fails (in the source, a slice panic) instead of reconstructing the staging
map: the claimed round trip does not hold. -/
theorem c1_wal_replay_fails_on_recorded_entry :
    (push_row cfgInt1 stEmpty [AlbaTypes.Int 1]).1.staging
      = [(0, (MvccState.Insert, [AlbaTypes.Int 1]))] ∧
    (push_row cfgInt1 stEmpty [AlbaTypes.Int 1]).1.wal
      = [0, 0, 0, 0, 1, 0, 0, 0, 0, 0, 0, 0, 0] ∧
    load_mvcc cfgInt1 [] (push_row cfgInt1 stEmpty [AlbaTypes.Int 1]).1.wal
      = .error "panic: slice out of range" := by decide

/-- C2: `push_row` consults only the index, so a second insert with the same
primary key 1 is accepted while the first is still staged; after the commit
both rows are on disk and the single index entry points at offset 24.
Deleting the row at offset 24 removes that entry, and after the second commit
the surviving committed row `(1, 10)` at offset 16 has no index entry at all:
the claimed uniqueness invariant fails at a committed state reachable by
push-push-commit-delete-commit. -/
theorem c2_pk_invariant_violated :
    (push_row cfgInt2 stInt2Empty [AlbaTypes.Int 1, AlbaTypes.Int 10]).2 = none ∧
    (push_row cfgInt2 (push_row cfgInt2 stInt2Empty
        [AlbaTypes.Int 1, AlbaTypes.Int 10]).1 [AlbaTypes.Int 1, AlbaTypes.Int 20]).2
      = none ∧
    (commit cfgInt2 c2Staged none).errMsg = none ∧
    isError c2AfterDelete = false ∧
    slotBytes cfgInt2 c2Final 0 = [0, 0, 0, 1, 0, 0, 0, 10] ∧
    deserialize_row cfgInt2.columns [0, 0, 0, 1, 0, 0, 0, 10]
      = .ok [AlbaTypes.Int 1, AlbaTypes.Int 10] ∧
    idxGet c2Final.index (get_index cfgInt2 (AlbaTypes.Int 1)) = none ∧
    committedPkIndexed cfgInt2 c2Final = false := by decide

/-- C2 sanity complement: at the committed state before the delete the
decidable invariant still holds, so the violation is produced by the
delete-of-a-duplicate step. -/
theorem c2_invariant_holds_before_delete :
    committedPkIndexed cfgInt2 c2Committed = true := by decide

/-- C3: `commit` clears the staging map right after partitioning it
(container.rs:374), before the first fallible materialization step, so when
the index remove of the staged edit fails the call returns an error with the
staging map already empty — the staged entry is NOT preserved for a retry
(only the untouched WAL bytes remain). -/
theorem c3_commit_clears_staging_before_failing :
    c3State.staging ≠ [] ∧
    (commit cfgInt1 c3State (some 0)).errMsg = some "IoFailure" ∧
    (commit cfgInt1 c3State (some 0)).state.staging = [] ∧
    (commit cfgInt1 c3State (some 0)).state.wal = c3State.wal := by decide

/-- C4 counterexample: a commit holding one staged delete and one staged
insert emits the index REMOVE before the index insert
(trace `[remove 2, insert 3 → 24, sync, batch, clear]`), so the order claimed
by C4 — all inserts, then all removes, then sync, then batches, then WAL
clear — is false for this commit. -/
theorem c4_commit_order_claim_false :
    (commit cfgInt2 c4State none).errMsg = none ∧
    (commit cfgInt2 c4State none).trace
      = [Ev.evIdxRemove 2, Ev.evIdxInsert 3 24, Ev.evIdxSync,
         Ev.evRowBatch [24, 16], Ev.evWalClear] ∧
    insertsRemovesSyncWritesClear (commit cfgInt2 c4State none).trace = false := by
  decide

/-- C5: serializing the valid row `[NanoBytes [], Int 1]` and deserializing
it back yields `[NanoBytes [], Int 0]`: `handle_bytes` returns without
advancing the cursor for a zero-length blob, so the following column is read
from the stale position.  The round trip loses data that no capacity
truncation explains. -/
theorem c5_codec_empty_blob_roundtrip_fails :
    serialize_row 22 [AlbaTypes.NanoBytes [], AlbaTypes.Int 1]
      = .ok (List.replicate 18 0 ++ [0, 0, 0, 1]) ∧
    deserialize_row [AlbaTypes.NanoBytes [], AlbaTypes.Int 0]
      (List.replicate 18 0 ++ [0, 0, 0, 1])
      = .ok [AlbaTypes.NanoBytes [], AlbaTypes.Int 0] ∧
    AlbaTypes.Int 0 ≠ AlbaTypes.Int 1 := by decide

/-- C5 sanity complement: the same schema round-trips exactly when the blob
is non-empty, isolating the zero-length arm as the failing one. -/
theorem c5_codec_nonempty_blob_roundtrip :
    serialize_row 22 [AlbaTypes.NanoBytes [7], AlbaTypes.Int 1]
      = .ok ([1, 0, 0, 0, 0, 0, 0, 0, 7] ++ List.replicate 9 0 ++ [0, 0, 0, 1]) ∧
    deserialize_row [AlbaTypes.NanoBytes [], AlbaTypes.Int 0]
      ([1, 0, 0, 0, 0, 0, 0, 0, 7] ++ List.replicate 9 0 ++ [0, 0, 0, 1])
      = .ok [AlbaTypes.NanoBytes [7], AlbaTypes.Int 1] := by decide

/-- C7: the scan loop of `search` contains no graveyard or tombstone check:
scanning a file whose single slot is the tombstone fill passes those bytes
straight to `deserialize_row`, whose string-length prefix check fails, and
the whole scan returns a deserialization error — the opposite of the claimed
skipping behaviour. -/
theorem c7_scan_fails_on_tombstone_slot :
    file7 = List.replicate 8 0 ++ List.replicate 18 255 ∧
    search noOps cfgStr1 headers7 file7 8 qcEmpty
      = .error "Invalid string length in data" := by decide

/-- C8: a string literal bound to a MediumString column is truncated to the
MediumString capacity but wrapped in `AlbaTypes::SmallString`
(query_conditions.rs:181), so the coerced value is NOT of the column's
bounded-string kind. -/
theorem c8_medium_string_literal_wrapped_as_small_string :
    from_primitive_conditions
      [(Token.string [99], Token.operator "=", Token.string [104, 105])] []
      [([99], AlbaTypes.MediumString [])] [99]
      = .ok ⟨some [99],
          [(⟨[99], Operator.Equal, AlbaTypes.SmallString [104, 105]⟩, none)]⟩ ∧
    sameKind (AlbaTypes.SmallString [104, 105]) (AlbaTypes.MediumString []) = false := by
  decide

/-- C10: a predicate whose condition chain is empty matches every row: the
empty-chain early return of `row_match` yields `Ok(true)` for any row and any
external string facilities. -/
theorem c10_empty_chain_matches_every_row (ops : StrOps)
    (pkName : Option (List Nat)) (row : RowData) :
    row_match ops ⟨pkName, []⟩ row = .ok true := rfl

/-- C6: in every state, `push_row` rejects a row whose primary-key hash is
already present in the index with the duplicate-key error and returns the
state unchanged; otherwise it succeeds, allocates the offset by popping the
smallest graveyard entry if one exists, else the maximum staged offset plus
`element_size`, else the file size, and stages the row as an Insert at that
offset. -/
theorem c6_push_row_spec (cfg : ContCfg) (st : ContState) (pk : AlbaTypes)
    (rest : List AlbaTypes) :
    (∀ o, idxGet st.index (get_index cfg pk) = some o →
      push_row cfg st (pk :: rest)
        = (st, some "This primary key is in use, they must be always unique.")) ∧
    (idxGet st.index (get_index cfg pk) = none →
      (push_row cfg st (pk :: rest)).2 = none ∧
      match st.graveyard.min? with
      | some g =>
          (push_row cfg st (pk :: rest)).1.staging
            = mapInsert g (MvccState.Insert, pk :: rest) st.staging ∧
          (push_row cfg st (pk :: rest)).1.graveyard = st.graveyard.erase g
      | none =>
          (push_row cfg st (pk :: rest)).1.graveyard = st.graveyard ∧
          match (st.staging.map (fun e => e.1)).max? with
          | some m =>
              (push_row cfg st (pk :: rest)).1.staging
                = mapInsert (m + cfg.elementSize) (MvccState.Insert, pk :: rest)
                    st.staging
          | none =>
              (push_row cfg st (pk :: rest)).1.staging
                = mapInsert st.file.length (MvccState.Insert, pk :: rest)
                    st.staging) := by
  constructor
  · intro o ho
    simp [push_row, ho]
  · intro hnone
    unfold push_row get_next_addr
    simp only [List.head?_cons, hnone]
    cases hg : st.graveyard.min? with
    | some g => simp
    | none =>
      cases hm : (st.staging.map (fun e => e.1)).max? with
      | some m => simp
      | none => simp

/-- Witness for `c6_push_row_spec`: its two hypotheses discharged at concrete
states — the duplicate rejection at the C2 committed state (whose index maps
hash 1 to offset 24) and the fresh-container allocation at the empty
two-column state. -/
theorem c6_push_row_spec_witness :
    (push_row cfgInt2 c2Committed (AlbaTypes.Int 1 :: [AlbaTypes.Int 77])
        = (c2Committed,
           some "This primary key is in use, they must be always unique.")) ∧
    (push_row cfgInt2 stInt2Empty (AlbaTypes.Int 5 :: [AlbaTypes.Int 6])).2 = none := by
  constructor
  · exact (c6_push_row_spec cfgInt2 c2Committed (AlbaTypes.Int 1)
      [AlbaTypes.Int 77]).1 24 (by decide)
  · exact ((c6_push_row_spec cfgInt2 stInt2Empty (AlbaTypes.Int 5)
      [AlbaTypes.Int 6]).2 (by decide)).1

/-! ### Supporting lemmas for the amended C4 ordering -/

theorem chunksOfGo_length_le (n : Nat) :
    ∀ (fuel : Nat) (l : List α) (c : List α), c ∈ chunksOfGo n fuel l → c.length ≤ n := by
  intro fuel
  induction fuel with
  | zero => intro l c hc; simp [chunksOfGo] at hc
  | succ f ih =>
    intro l c hc
    rw [chunksOfGo] at hc
    split at hc
    · simp at hc
    · rcases List.mem_cons.mp hc with h | h
      · subst h; exact List.length_take_le n l
      · exact ih _ _ h

theorem chunksOf_length_le (n : Nat) (l : List α) (c : List α)
    (hc : c ∈ chunksOf n l) : c.length ≤ n :=
  chunksOfGo_length_le n l.length l c hc

theorem writeFoldTrace (chunks : List (List (Nat × List Nat))) :
    ∀ (file : List Nat) (acc : List Ev),
      (chunks.foldl
        (fun a b => (batchWriteData a.1 b, a.2 ++ [Ev.evRowBatch (b.map (fun e => e.1))]))
        (file, acc)).2
      = acc ++ chunks.map (fun b => Ev.evRowBatch (b.map (fun e => e.1))) := by
  induction chunks with
  | nil => intro file acc; simp
  | cons c t ih =>
    intro file acc
    rw [List.foldl_cons, List.map_cons, ih]
    simp

theorem commitWritePhase_trace (file : List Nat) (writes : List (Nat × List Nat)) :
    (commitWritePhase file writes).2
      = (chunksOf 3000 writes).map (fun b => Ev.evRowBatch (b.map (fun e => e.1))) := by
  rw [commitWritePhase, writeFoldTrace]
  simp

theorem commitEditsPhase_trace (cfg : ContCfg) (failAt : Option Nat) :
    ∀ (l : List (Nat × List AlbaTypes)) (a : IdxAcc)
      (out : IdxAcc × List (Nat × List Nat) × List (AlbaTypes × Nat)),
      commitEditsPhase cfg failAt l a = .ok out →
      ∃ r, out.1.trace = a.trace ++ r ∧ r.all evIsRemove = true := by
  intro l
  induction l with
  | nil =>
    intro a out h
    rw [commitEditsPhase] at h
    cases h
    exact ⟨[], by simp, rfl⟩
  | cons hd t ih =>
    intro a out h
    obtain ⟨off, rowData⟩ := hd
    rw [commitEditsPhase] at h
    split at h
    · simp at h
    · split at h
      · simp at h
      · split at h
        · simp at h
        · split at h
          · simp at h
          · split at h
            · simp at h
            · rename_i hrest
              cases h
              obtain ⟨r, hr, hall⟩ := ih _ _ hrest
              exact ⟨_, by simpa [List.append_assoc] using hr,
                by simpa [evIsRemove] using hall⟩

theorem commitDelsPhase_trace (cfg : ContCfg) (failAt : Option Nat) :
    ∀ (l : List (Nat × List AlbaTypes)) (a : IdxAcc) (gy : List Nat) (gyl : Nat)
      (out : IdxAcc × List Nat × List (Nat × List Nat)),
      commitDelsPhase cfg failAt l a gy gyl = .ok out →
      ∃ r, out.1.trace = a.trace ++ r ∧ r.all evIsRemove = true := by
  intro l
  induction l with
  | nil =>
    intro a gy gyl out h
    rw [commitDelsPhase] at h
    cases h
    exact ⟨[], by simp, rfl⟩
  | cons hd t ih =>
    intro a gy gyl out h
    obtain ⟨off, rowData⟩ := hd
    rw [commitDelsPhase] at h
    split at h
    · simp at h
    · split at h
      · simp at h
      · split at h
        · simp at h
        · rename_i hrest
          cases h
          obtain ⟨r, hr, hall⟩ := ih _ _ _ _ hrest
          exact ⟨_, by simpa [List.append_assoc] using hr,
            by simpa [evIsRemove] using hall⟩

theorem commitIdxInsPhase_trace (cfg : ContCfg) (failAt : Option Nat) :
    ∀ (l : List (AlbaTypes × Nat)) (a : IdxAcc) (out : IdxAcc),
      commitIdxInsPhase cfg failAt l a = .ok out →
      ∃ r, out.trace = a.trace ++ r ∧ r.all evIsInsert = true := by
  intro l
  induction l with
  | nil =>
    intro a out h
    rw [commitIdxInsPhase] at h
    cases h
    exact ⟨[], by simp, rfl⟩
  | cons hd t ih =>
    intro a out h
    obtain ⟨alb, off⟩ := hd
    rw [commitIdxInsPhase] at h
    split at h
    · simp at h
    · obtain ⟨r, hr, hall⟩ := ih _ _ h
      exact ⟨_, by simpa [List.append_assoc] using hr,
        by simpa [evIsInsert] using hall⟩

theorem takeWhileAppendOfAll (p : α → Bool) (l m : List α) (h : l.all p = true) :
    (l ++ m).takeWhile p = l ++ m.takeWhile p := by
  induction l with
  | nil => simp
  | cons e t ih =>
    simp only [List.all_cons, Bool.and_eq_true] at h
    simp [List.takeWhile_cons, h.1, ih h.2]

theorem evIsInsert_not_remove (e : Ev) (h : evIsInsert e = true) :
    evIsRemove e = false := by
  cases e <;> simp_all [evIsInsert, evIsRemove]

theorem removesInserts_shape_accepts (R I W : List Ev)
    (hR : R.all evIsRemove = true) (hI : I.all evIsInsert = true)
    (hW1 : W.all evIsBatch = true)
    (hW2 : W.all (fun e => batchSize e ≤ 3000) = true) :
    removesInsertsSyncWritesClear
      (R ++ (I ++ (Ev.evIdxSync :: (W ++ [Ev.evWalClear])))) = true := by
  have hIrest : (I ++ (Ev.evIdxSync :: (W ++ [Ev.evWalClear]))).takeWhile evIsRemove
      = [] := by
    cases I with
    | nil => simp [List.takeWhile_cons, evIsRemove]
    | cons e t =>
      simp only [List.all_cons, Bool.and_eq_true] at hI
      simp [List.takeWhile_cons, evIsInsert_not_remove e hI.1]
  have hWrest : ((Ev.evIdxSync :: (W ++ [Ev.evWalClear])) : List Ev).takeWhile
      evIsInsert = [] := by
    simp [List.takeWhile_cons, evIsInsert]
  rw [removesInsertsSyncWritesClear]
  simp only [takeWhileAppendOfAll evIsRemove R _ hR, hIrest, List.append_nil,
    List.drop_left, takeWhileAppendOfAll evIsInsert I _ hI, hWrest]
  simp only [takeWhileAppendOfAll evIsBatch W _ hW1, List.takeWhile_cons, evIsBatch,
    Bool.false_eq_true, if_false, List.append_nil, List.drop_left]
  simp [hW2]

/-- C4 amended: within every single commit that returns successfully, the
observable effects happen in the order (1) all index REMOVES (those of the
edits loop, then those of the deletes loop), then (2) all index INSERTS, then
(3) the index sync, then (4) the batched row writes in batches of at most
3000 entries, then (5) the WAL clear. -/
theorem c4_commit_effect_order (cfg : ContCfg) (st : ContState)
    (h : (commit cfg st none).errMsg = none) :
    removesInsertsSyncWritesClear (commit cfg st none).trace = true := by
  rw [commit] at h
  split at h
  · simp at h
  · rename_i insW insB h1
    split at h
    · simp at h
    · rename_i a1 editW editB h2
      split at h
      · simp at h
      · rename_i a2 gy2 delW h3
        split at h
        · simp at h
        · rename_i a3 h4
          split at h
          · simp at h
          · rename_i hne
            rw [commit]
            simp only [h1, h2, h3, h4]
            rw [if_neg hne]
            obtain ⟨r1, hr1, hall1⟩ := commitEditsPhase_trace cfg none _ _ _ h2
            obtain ⟨r2, hr2, hall2⟩ := commitDelsPhase_trace cfg none _ _ _ _ _ h3
            obtain ⟨ri, hri, halli⟩ := commitIdxInsPhase_trace cfg none _ _ _ h4
            simp only [] at hr1 hr2 hri
            have htr : a3.trace = (r1 ++ r2) ++ ri := by
              rw [hri, hr2, hr1]
              simp
            rw [commitWritePhase_trace, htr]
            have hWb : ((chunksOf 3000 (insW ++ editW ++ delW)).map
                (fun b => Ev.evRowBatch (b.map (fun e => e.1)))).all evIsBatch
                = true := by
              rw [List.all_eq_true]
              intro c hc
              obtain ⟨b, hb, rfl⟩ := List.mem_map.mp hc
              rfl
            have hWs : ((chunksOf 3000 (insW ++ editW ++ delW)).map
                (fun b => Ev.evRowBatch (b.map (fun e => e.1)))).all
                  (fun e => batchSize e ≤ 3000) = true := by
              rw [List.all_eq_true]
              intro c hc
              obtain ⟨b, hb, rfl⟩ := List.mem_map.mp hc
              simpa [batchSize] using chunksOf_length_le 3000 _ b hb
            have hRall : (r1 ++ r2).all evIsRemove = true := by
              simp [List.all_append, hall1, hall2]
            have hmain := removesInserts_shape_accepts (r1 ++ r2) ri
              ((chunksOf 3000 (insW ++ editW ++ delW)).map
                (fun b => Ev.evRowBatch (b.map (fun e => e.1))))
              hRall halli hWb hWs
            simpa [List.append_assoc] using hmain

/-! ### Supporting lemmas for C9 (vacuum chunk coverage) -/

theorem chunksExactGo_nil_of_short (n fuel : Nat) (l : List α) (h : l.length < n) :
    chunksExactGo n fuel l = [] := by
  cases fuel with
  | zero => rfl
  | succ f => rw [chunksExactGo]; rw [if_pos (Or.inr h)]

theorem chunksExactGo_replicate (n : Nat) (a : α) (hn : 0 < n) :
    ∀ (k fuel : Nat), k * n ≤ fuel →
      chunksExactGo n fuel (List.replicate (k * n) a)
        = List.replicate k (List.replicate n a) := by
  intro k
  induction k with
  | zero =>
    intro fuel _
    rw [Nat.zero_mul, List.replicate_zero]
    exact chunksExactGo_nil_of_short n fuel [] (by simpa using hn)
  | succ j ih =>
    intro fuel hfuel
    have h1 : (j + 1) * n = n + j * n := by ring
    cases fuel with
    | zero => omega
    | succ f =>
      rw [chunksExactGo]
      rw [if_neg (by simp; omega)]
      rw [h1, List.take_replicate, List.drop_replicate]
      have h2 : min n (n + j * n) = n := by omega
      have h3 : n + j * n - n = j * n := by omega
      rw [h2, h3, ih f (by omega)]
      rfl

theorem chunksExact_replicate (n k : Nat) (a : α) (hn : 0 < n) :
    chunksExact n (List.replicate (k * n) a)
      = List.replicate k (List.replicate n a) := by
  rw [chunksExact, List.length_replicate]
  exact chunksExactGo_replicate n a hn k _ le_rfl

theorem file9_length : file9.length = 8 + 3 * 1398104 := by
  rw [file9, List.length_append, List.length_replicate, List.length_replicate]

/-- The single read the C9 vacuum performs: it covers only the first two of
the three slots. -/
theorem slice9 :
    sliceQ file9 (8 + 0 * 1398104) (8 + 0 * 1398104 + 1398104 * min (3 - 0) 2)
      = some (List.replicate (2 * 1398104) 255) := by
  have hc : 8 + 0 * 1398104 ≤ 8 + 0 * 1398104 + 1398104 * min (3 - 0) 2 ∧
      8 + 0 * 1398104 + 1398104 * min (3 - 0) 2 ≤ file9.length := by
    rw [file9_length]
    omega
  rw [sliceQ, if_pos hc, file9]
  rw [show (8 + 0 * 1398104 : Nat) = (List.replicate 8 (0 : Nat)).length from by
    rw [List.length_replicate]]
  rw [List.drop_left, List.take_replicate]
  simp only [List.length_replicate]
  congr 1

/-- The C9 bitmap: one iteration, two bits, though the region has three
slots. -/
theorem bits9 : vacReadGo cfg9 file9 3 2 1 0 = .ok [false, false] := by
  rw [show (1 : Nat) = 0 + 1 from rfl, vacReadGo]
  rw [show cfg9.headersOffset + 0 * cfg9.elementSize = 8 + 0 * 1398104 from rfl]
  rw [show cfg9.elementSize * min (3 - 0) 2 = 1398104 * min (3 - 0) 2 from rfl]
  rw [slice9]
  rw [show cfg9.elementSize = 1398104 from rfl]
  simp only [pure_bind]
  rw [show vacReadGo cfg9 file9 3 2 0 (0 + min (3 - 0) 2) = Except.ok [] from rfl]
  simp only [Bind.bind, Except.bind]
  rw [chunksExact_replicate 1398104 2 (255 : Nat) (by omega)]
  rw [List.map_replicate]
  rw [show (List.replicate 1398104 (255 : Nat) == List.replicate 1398104 255) = true
    from beq_self_eq_true _]
  rfl

theorem pairs9 : vacPairsGo [false, false] 0 1 false [] = [] := by
  simp [vacPairsGo]

theorem tail9 : vacTailGo [false, false] 1 0 = 2 := rfl

theorem setLen9_length : (setLen file9 1398112).length = 1398112 := by
  rw [setLen, List.length_append, List.length_take, List.length_replicate,
    file9_length]
  omega

theorem exceptOkBind (v : α) (f : α → Except ε β) :
    ((Except.ok v : Except ε α) >>= f) = f v := rfl

/-- C9: running vacuum on an all-tombstone container whose three slots have
element size 1398104 (one LargeBytes column plus 99524 i32 columns) truncates
the file to `headers_offset + element_size = 1398112` bytes, not to
`headers_offset = 8`: the bitmap loop runs `(length / chunk_size).max(1) = 1`
iterations with `chunk_size = 4194304 / 1398104 = 2`, covers only two of the
three slots, and so undercounts the trailing tombstone run by one slot. -/
theorem c9_vacuum_all_tombstone_misses_trailing_slot :
    (vacuum cfg9 st9).map (fun s => s.file.length) = Except.ok 1398112 ∧
    (1398112 : Nat) ≠ cfg9.headersOffset := by
  constructor
  · rw [vacuum]
    rw [show st9.file = file9 from rfl,
      show st9.index = ([] : List (Nat × Nat)) from rfl]
    rw [show cfg9.elementSize = 1398104 from rfl,
      show cfg9.headersOffset = 8 from rfl]
    rw [file9_length]
    rw [show ((8 + 3 * 1398104 - 8 : Nat) / 1398104) = 3 from by norm_num]
    rw [if_neg (by norm_num)]
    rw [show ((4194304 : Nat) / 1398104) = 2 from by norm_num]
    rw [if_neg (by norm_num)]
    rw [show max ((3 : Nat) / 2) 1 = 1 from by norm_num]
    rw [bits9, exceptOkBind]
    rw [show (([false, false] : List Bool).length - 1) = 1 from rfl]
    rw [pairs9]
    rw [show vacMovePairs cfg9 [] file9 [] [false, false]
      = Except.ok (file9, ([] : List (Nat × Nat)), [false, false]) from rfl]
    rw [exceptOkBind]
    rw [show ((file9, ([] : List (Nat × Nat)), [false, false]).2.2)
      = [false, false] from rfl]
    rw [show ((file9, ([] : List (Nat × Nat)), [false, false]).2.1)
      = ([] : List (Nat × Nat)) from rfl]
    rw [show ((file9, ([] : List (Nat × Nat)), [false, false]).1) = file9 from rfl]
    rw [show (([false, false] : List Bool).length - 1) = 1 from rfl]
    rw [tail9]
    rw [if_pos (by norm_num : (2 : Nat) > 0)]
    rw [file9_length]
    rw [show ((8 : Nat) ⊔ (8 + 3 * 1398104 - 2 * 1398104)) = 1398112 from by norm_num]
    show Except.ok ((setLen file9 1398112).length) = Except.ok 1398112
    rw [setLen9_length]
  · decide

/-- Witness for `c4_commit_effect_order`: applied at the C4 scenario state,
whose commit succeeds. -/
theorem c4_commit_effect_order_witness :
    removesInsertsSyncWritesClear (commit cfgInt2 c4State none).trace = true :=
  c4_commit_effect_order cfgInt2 c4State (by decide)

/-- Witness for `c10_empty_chain_matches_every_row`: a concrete row with one
integer column matches the empty-chain predicate. -/
theorem c10_empty_chain_matches_every_row_witness :
    row_match noOps ⟨some [99], []⟩ [([99], AlbaTypes.Int 5)] = .ok true :=
  c10_empty_chain_matches_every_row noOps (some [99]) [([99], AlbaTypes.Int 5)]

end TytoDB
